import Mathlib

/-!
# canvas-sketch-cli: a shallow embedding of `src/index.js` and `src/plugin-resolve.js`

JavaScript strings are embedded as `String`, arrays as `List`, thrown errors and
rejected promises as explicit results.  External collaborators (the bundler's
resolver, `commit`, `install`, `dateformat`, `filenamify`, `chalk`, the `path`
module) are parameters of the embedding.
-/

set_option autoImplicit false

namespace CanvasSketch

/-! ## JavaScript string primitives -/

/-- The code points removed by `String.prototype.trim`: ECMAScript white space
and line terminators. -/
def isJsWhiteSpace (c : Char) : Bool :=
  let n := c.toNat
  n == 0x09 || n == 0x0A || n == 0x0B || n == 0x0C || n == 0x0D || n == 0x20 ||
  n == 0xA0 || n == 0x1680 || (0x2000 ≤ n && n ≤ 0x200A) || n == 0x2028 ||
  n == 0x2029 || n == 0x202F || n == 0x205F || n == 0x3000 || n == 0xFEFF

/-- The code points a `.` of a regular expression without the `s` flag refuses. -/
def isLineTerminator (c : Char) : Bool :=
  let n := c.toNat
  n == 0x0A || n == 0x0D || n == 0x2028 || n == 0x2029

/-- The method `trim` on the characters of a string. -/
def jsTrim (cs : List Char) : List Char :=
  ((cs.dropWhile isJsWhiteSpace).reverse.dropWhile isJsWhiteSpace).reverse

/-- The method `startsWith` on the characters of two strings. -/
def jsStartsWith : List Char → List Char → Bool
  | _, [] => true
  | [], _ :: _ => false
  | c :: cs, p :: ps => c == p && jsStartsWith cs ps

/-- The pieces of `s.split(sep)` for a one-character separator; never empty. -/
def splitChars (sep : Char) : List Char → List (List Char)
  | [] => [[]]
  | c :: cs =>
    if c = sep then [] :: splitChars sep cs
    else
      match splitChars sep cs with
      | [] => [[c]]
      | l :: ls => (c :: l) :: ls

/-- The array `s.split(sep)`. -/
def jsSplit (sep : Char) (s : String) : List String :=
  (splitChars sep s.toList).map String.mk

/-- The method `findIndex` of arrays; `none` stands for `-1`. -/
def findIndex {α : Type} (p : α → Bool) : List α → Option Nat
  | [] => none
  | x :: xs => if p x then some 0 else (findIndex p xs).map (· + 1)

/-- The replacement `s.replace(/\.js$/, '')`: one trailing `.js` is removed. -/
def stripJs (s : String) : String :=
  match s.toList.reverse with
  | 's' :: 'j' :: '.' :: r => String.mk r.reverse
  | _ => s

/-! ## `index.js`: entry normalisation (lines 82-84) -/

/-- The test `/^[.\//]/.test(entry)`. -/
def startsWithDotOrSlash (entry : String) : Bool :=
  match entry.toList with
  | c :: _ => c == '.' || c == '/'
  | [] => false

/-- The constant `entryPath` of `start`: what `resolve.sync` is called with. -/
def entryPath (entry : String) : String :=
  if startsWithDotOrSlash entry then entry else "./" ++ entry

/-! ## `index.js`: the top-level error handler (lines 148-156) -/

/-- The predicate `line => line.trim().startsWith('at ')`. -/
def isAtLine (line : String) : Bool :=
  jsStartsWith (jsTrim line.toList) "at ".toList

/-- The index `endIdx` after the adjustment of line 152. -/
def endIdx (lines : List String) : Nat :=
  match findIndex isAtLine lines with
  | none => 1
  | some 0 => 1
  | some (i + 1) => i + 1

/-- The pair `lines.slice(0, endIdx)`, `lines.slice(endIdx)` of the handler. -/
def splitStack (stack : String) : List String × List String :=
  let lines := jsSplit '\n' stack
  (lines.take (endIdx lines), lines.drop (endIdx lines))

/-! ## The environment: external collaborators and the file system -/

/-- An `Error` object: its `message` and the `stack` text the engine attached. -/
structure JsError where
  message : String
  stack : String
deriving DecidableEq, Repr

/-- What a path names on disk. -/
inductive Node where
  | file (content : String)
  | dir
deriving DecidableEq, Repr

/-- The file system: the nodes on disk, by path. -/
abbrev FS := List (String × Node)

/-- The call `fs.existsSync(p)`. -/
def existsSync (fs : FS) (p : String) : Bool :=
  (fs.lookup p).isSome

/-- Whether `p` is a directory. -/
def isDirectory (fs : FS) (p : String) : Bool :=
  match fs.lookup p with
  | some Node.dir => true
  | _ => false

/-- The call `fs.readFileSync(p, 'utf-8')`; `none` when it throws. -/
def readFileSync (fs : FS) (p : String) : Option String :=
  match fs.lookup p with
  | some (Node.file c) => some c
  | _ => none

/-- The call `fs.writeFileSync(p, data)` at a path that is not a directory. -/
def writeFileSync (fs : FS) (p : String) (data : String) : FS :=
  (p, Node.file data) :: fs.filter (fun e => e.1 != p)

/-- The observable state of the process: the disk and the two console streams. -/
structure World where
  fs : FS
  stdout : List String
  stderr : List String
deriving DecidableEq, Repr

/-- The call `console.log(line)`. -/
def World.log (w : World) (line : String) : World :=
  { w with stdout := w.stdout ++ [line] }

/-- The call `console.error(line)`. -/
def World.logError (w : World) (line : String) : World :=
  { w with stderr := w.stderr ++ [line] }

/-- The values outside this repository that `index.js` and `plugin-resolve.js`
read or call. -/
structure Env where
  /-- The value of `process.cwd()`. -/
  cwd : String
  /-- The directory of the running script. -/
  __dirname : String
  /-- The value of `Date.now()`. -/
  now : Nat
  /-- The package `dateformat`: an instant and a mask give a text. -/
  dateformat : Nat → String → String
  /-- The package `filenamify`. -/
  filenamify : String → String
  /-- The function `path.join` of two segments. -/
  join : String → String → String
  /-- The function `path.relative`. -/
  relative : String → String → String
  /-- The function `path.dirname`. -/
  pathDirname : String → String
  /-- The function `path.resolve` of two segments. -/
  resolve2 : String → String → String
  /-- The function `path.resolve` of three segments. -/
  resolve3 : String → String → String → String
  /-- The styles of `chalk`. -/
  bold : String → String
  red : String → String
  green : String → String
  /-- The `stack` text the engine attaches to `new Error(message)`. -/
  stackOf : String → String
  /-- The call `resolve.sync(id, { basedir })`; `none` when it throws. -/
  resolveSync : FS → String → String → Option String
  /-- The awaited call `install(entrySrc, { bullet })`: what it does to the
  process state, and the error it rejects with, if any. -/
  install : String → String → World → World × Option JsError

/-- The expression `new Error(message)`. -/
def newError (env : Env) (message : String) : JsError :=
  { message := message, stack := env.stackOf message }

/-- The promisified `mkdirp(p)` for a path whose parent exists: a directory is
left alone, a missing path is created, anything else at `p` rejects with the
error of `fs.mkdir`. -/
def mkdirp (env : Env) (fs : FS) (p : String) : Except JsError FS :=
  match fs.lookup p with
  | some Node.dir => .ok fs
  | some (Node.file _) =>
    .error (newError env ("EEXIST: file already exists, mkdir \x27" ++ p ++ "\x27"))
  | none => .ok ((p, Node.dir) :: fs)

/-! ## `index.js`: the file name generator (lines 33-39) -/

def templateDirectory : String := "templates"

def sketchDirectory : String := "sketches"

/-- The template literal of line 37 with the separator and stripped suffix of
lines 34-35; `date` is the text `dateformat` returned. -/
def fileNameOf (date : String) (suffix : String) : String :=
  let separator := if suffix ≠ "" then "-" else ""
  let suffix := stripJs suffix
  date ++ separator ++ suffix ++ ".js"

/-- The function `generateFileName`; `none` is a call without argument (or with
`undefined`), for which the default `''` applies. -/
def generateFileName (env : Env) (suffix : Option String) : String :=
  let suffix := suffix.getD ""
  let date := env.dateformat env.now "yyyy.mm.dd-HH.MM.ss"
  env.filenamify (fileNameOf date suffix)

/-! ## `index.js`: the function `start` (lines 41-145) -/

/-- The value of `argv.new`: absent, the bare flag, or a text. -/
inductive NewFlag where
  | unset
  | flag
  | named (s : String)
deriving DecidableEq, Repr

/-- Whether `argv.new` is truthy: the empty text is not. -/
def NewFlag.truthy : NewFlag → Bool
  | .unset => false
  | .flag => true
  | .named s => s != ""

/-- The expression `typeof argv.new === 'string' ? argv.new : undefined`. -/
def NewFlag.suffix : NewFlag → Option String
  | .named s => some s
  | _ => none

/-- The parsed command line. -/
structure Argv where
  /-- The positional `argv._[0]`. -/
  entry : Option String
  dir : Option String
  openBrowser : Bool
  install : Bool
  template : String
  new : NewFlag
deriving DecidableEq, Repr

/-- The options `start` hands to `budo`, besides the fixed ones. -/
structure BudoCall where
  entry : String
  openBrowser : Bool
  dir : Option String
deriving DecidableEq, Repr

/-- How a run of `start` ends. -/
inductive Completion where
  /-- The call `process.exit(code)` was made. -/
  | exited (code : Nat)
  /-- The promise of `start` rejected with `err`. -/
  | rejected (err : JsError)
  /-- The call `budo(entry, ...)` was made: the dev server is started. -/
  | serving (call : BudoCall)
deriving DecidableEq, Repr

/-- The text `bullet`. -/
def bullet (env : Env) : String :=
  env.bold (env.green "\n  → ")

/-- Lines 48-68, the branch `if (argv.new)`: the new state and either the error
thrown or the values of `entry` and `entrySrc` after it. -/
def materialize (env : Env) (argv : Argv) (w : World) :
    World × Except JsError (Option String × Option String) :=
  if argv.new.truthy then
    let file := generateFileName env argv.new.suffix
    match mkdirp env w.fs sketchDirectory with
    | .error err => (w, .error err)
    | .ok fs1 =>
      let w1 := { w with fs := fs1 }
      let filepath := env.join sketchDirectory file
      if existsSync w1.fs filepath then
        (w1, .error (newError env
          ("The file already exists: " ++ env.relative env.cwd filepath)))
      else
        match readFileSync w1.fs
            (env.resolve3 env.__dirname templateDirectory (argv.template ++ ".js")) with
        | none =>
          (w1, .error (newError env
            ("Couldn\x27t find a template by the key " ++ argv.template)))
        | some template =>
          let w2 := w1.log
            (bullet env ++ "Writing file: " ++ env.bold (env.relative env.cwd filepath))
          let w3 := { w2 with fs := writeFileSync w2.fs filepath template }
          (w3, .ok (some filepath, some template))
  else
    (w, .ok (argv.entry, none))

/-- The usage text of lines 71-73. -/
def usage (env : Env) : String :=
  "\n  " ++ env.red "No entry file specified!" ++ "\n\n  " ++
    "Example usage:\n    canvas-sketch src/index.js\n    canvas-sketch --new --template=regl"
    ++ "\n"

/-- Lines 78-98, the branch `if (!entrySrc)`: the new state and either the exit
status or the source text read. -/
def readSource (env : Env) (entry : String) (w : World) : World × Except Nat String :=
  let w1 := w.log ("resolving " ++ entry)
  let w2 := w1.log (entryPath entry)
  match env.resolveSync w2.fs (entryPath entry) env.cwd with
  | none =>
    (w2.log ("\n  " ++ env.red ("Cannot find file: " ++ env.bold entry)), .error 1)
  | some entryFile =>
    match readFileSync w2.fs entryFile with
    | none =>
      (w2.log ("\n  " ++ env.red
        ("Cannot read entry file: " ++ env.bold (env.relative env.cwd entryFile))),
        .error 1)
    | some src => (w2, .ok src)

/-- Lines 100-145: the optional install, then the call of `budo`. -/
def installAndServe (env : Env) (argv : Argv) (entry entrySrc : String) (w : World) :
    World × Completion :=
  let call : BudoCall := { entry := entry, openBrowser := argv.openBrowser, dir := argv.dir }
  if argv.install then
    match env.install entrySrc (bullet env) w with
    | (w1, some err) => (w1, .rejected err)
    | (w1, none) => (w1, .serving call)
  else
    (w, .serving call)

/-- The async function `start`. -/
def start (env : Env) (argv : Argv) (w : World) : World × Completion :=
  match materialize env argv w with
  | (w1, .error err) => (w1, .rejected err)
  | (w1, .ok (entry, entrySrc)) =>
    match entry with
    | none => (w1.log (usage env), .exited 1)
    | some entry =>
      if entry = "" then (w1.log (usage env), .exited 1)
      else
        match entrySrc with
        | some src =>
          if src ≠ "" then installAndServe env argv entry src w1
          else
            match readSource env entry w1 with
            | (w2, .error code) => (w2, .exited code)
            | (w2, .ok src2) => installAndServe env argv entry src2 w2
        | none =>
          match readSource env entry w1 with
          | (w2, .error code) => (w2, .exited code)
          | (w2, .ok src2) => installAndServe env argv entry src2 w2

/-- The text the handler of `start().catch` prints for an error. -/
def errorReport (env : Env) (err : JsError) : String :=
  let parts := splitStack err.stack
  let redLines := env.red ("\n".intercalate parts.1)
  let otherLines := "\n".intercalate parts.2
  "\n".intercalate ["", redLines, otherLines, ""]

/-- How the process stands once the top-level statement has run. -/
inductive ProcessStatus where
  /-- The process has ended with this exit status. -/
  | ended (code : Nat)
  /-- The dev server keeps the process alive. -/
  | running
deriving DecidableEq, Repr

/-- The top-level statement `start().catch(...)`.  The handler prints the error
and returns; it neither calls `process.exit` nor sets `process.exitCode`, so the
process then ends by itself with status 0. -/
def main (env : Env) (argv : Argv) (w : World) : World × ProcessStatus :=
  match start env argv w with
  | (w1, .exited code) => (w1, .ended code)
  | (w1, .rejected err) => (w1.logError (errorReport env err), .ended 0)
  | (w1, .serving _) => (w1, .running)

/-! ## `index.js`: the request middleware (lines 111-126) -/

/-- The part of a `http.ServerResponse` the middleware touches. -/
structure Response where
  statusCode : Nat
  headers : List (String × String)
  /-- The chunks written so far. -/
  body : List String
  /-- Whether `end` has been called. -/
  finished : Bool
deriving DecidableEq, Repr

/-- The call `res.setHeader(name, value)`: header names are case-insensitive. -/
def Response.setHeader (res : Response) (name value : String) : Response :=
  { res with
    headers := (name, value) :: res.headers.filter (fun h => h.1.toLower != name.toLower) }

/-- The call `res.getHeader(name)`. -/
def Response.getHeader (res : Response) (name : String) : Option String :=
  (res.headers.find? (fun h => h.1.toLower == name.toLower)).map (·.2)

/-- The call `res.end(data)`. -/
def Response.endWith (res : Response) (data : String) : Response :=
  { res with body := res.body ++ [data], finished := true }

/-- What one run of the middleware did. -/
structure Served where
  res : Response
  /-- The argument of each call of `next`, in order; `none` is `null`. -/
  nextCalls : List (Option JsError)
  /-- How many times `commit()` was called. -/
  commitRuns : Nat
  /-- The errors handed to `console.error`. -/
  logged : List JsError
deriving DecidableEq, Repr

/-- The function `middleware`.  The module `./commit` is outside the sources:
`commit` is the settlement of the promise that the one call `commit()` returns,
and `stringify` is `JSON.stringify` on its records. -/
def middleware {ρ : Type} (stringify : ρ → String) (commit : Except JsError ρ)
    (url : String) (res : Response) : Served :=
  if url = "/canvas-sketch-client/commit-hash" then
    match commit with
    | .ok result =>
      { res := (({ res with statusCode := 200 }).setHeader "Content-Type"
          "application/json").endWith (stringify result),
        nextCalls := [], commitRuns := 1, logged := [] }
    | .error err =>
      { res := (({ res with statusCode := 500 }).setHeader "Content-Type"
          "text/plain").endWith err.message,
        nextCalls := [], commitRuns := 1, logged := [err] }
  else
    { res := res, nextCalls := [none], commitRuns := 0, logged := [] }

/-! ## `JSON.parse` -/

/-- A JavaScript string as its UTF-16 code units. -/
abbrev JsStr := List Nat

/-- The code units of one code point. -/
def utf16 (c : Char) : List Nat :=
  let n := c.toNat
  if n < 0x10000 then [n]
  else [0xD800 + (n - 0x10000) / 0x400, 0xDC00 + (n - 0x10000) % 0x400]

/-- The code units of a text. -/
def toUtf16 (s : String) : JsStr :=
  s.toList.flatMap utf16

/-- A value `JSON.parse` returns. -/
inductive JValue where
  | null
  | bool (b : Bool)
  | number (lexeme : List Char)
  | string (s : JsStr)
  | array (items : List JValue)
  | object (members : List (JsStr × JValue))

/-- The tokens of the JSON grammar. -/
inductive Token where
  | lbrace | rbrace | lbracket | rbracket | colon | comma
  | str (s : JsStr)
  | num (lexeme : List Char)
  | tru | fls | nul

/-- Where the lexer stands inside a JSON number. -/
inductive NumState where
  | minus | zero | int | dot | frac | e | esign | exp
deriving DecidableEq

def isDigit (c : Char) : Bool := '0' ≤ c && c ≤ '9'

/-- The value of a hexadecimal digit. -/
def hexValue (c : Char) : Option Nat :=
  if '0' ≤ c && c ≤ '9' then some (c.toNat - 48)
  else if 'a' ≤ c && c ≤ 'f' then some (c.toNat - 87)
  else if 'A' ≤ c && c ≤ 'F' then some (c.toNat - 55)
  else none

/-- One more character of a number, when the grammar allows it. -/
def numStep : NumState → Char → Option NumState
  | .minus, c => if c = '0' then some .zero else if isDigit c then some .int else none
  | .zero, c => if c = '.' then some .dot else if c = 'e' || c = 'E' then some .e else none
  | .int, c =>
    if isDigit c then some .int else if c = '.' then some .dot
    else if c = 'e' || c = 'E' then some .e else none
  | .dot, c => if isDigit c then some .frac else none
  | .frac, c => if isDigit c then some .frac else if c = 'e' || c = 'E' then some .e else none
  | .e, c => if isDigit c then some .exp else if c = '+' || c = '-' then some .esign else none
  | .esign, c => if isDigit c then some .exp else none
  | .exp, c => if isDigit c then some .exp else none

/-- Whether a number may end here. -/
def NumState.accepting : NumState → Bool
  | .zero | .int | .frac | .exp => true
  | _ => false

/-- What the lexer is in the middle of. -/
inductive LexMode where
  | idle
  | inString (acc : JsStr)
  | escape (acc : JsStr)
  | hex (acc : JsStr) (digits : List Nat)
  | inNumber (st : NumState) (lexeme : List Char)
  | inLiteral (rest : List Char) (tok : Token)

/-- The lexer: its mode and the tokens read so far. -/
structure LexState where
  mode : LexMode
  tokens : List Token

/-- A character met between tokens. -/
def lexIdle (tokens : List Token) (c : Char) : Option LexState :=
  if c = ' ' || c = '\t' || c = '\n' || c = '\r' then some ⟨.idle, tokens⟩
  else if c = '\x7b' then some ⟨.idle, tokens ++ [.lbrace]⟩
  else if c = '\x7d' then some ⟨.idle, tokens ++ [.rbrace]⟩
  else if c = '[' then some ⟨.idle, tokens ++ [.lbracket]⟩
  else if c = ']' then some ⟨.idle, tokens ++ [.rbracket]⟩
  else if c = ':' then some ⟨.idle, tokens ++ [.colon]⟩
  else if c = ',' then some ⟨.idle, tokens ++ [.comma]⟩
  else if c = '"' then some ⟨.inString [], tokens⟩
  else if c = '-' then some ⟨.inNumber .minus [c], tokens⟩
  else if c = '0' then some ⟨.inNumber .zero [c], tokens⟩
  else if isDigit c then some ⟨.inNumber .int [c], tokens⟩
  else if c = 't' then some ⟨.inLiteral ['r', 'u', 'e'] .tru, tokens⟩
  else if c = 'f' then some ⟨.inLiteral ['a', 'l', 's', 'e'] .fls, tokens⟩
  else if c = 'n' then some ⟨.inLiteral ['u', 'l', 'l'] .nul, tokens⟩
  else none

/-- One character of the text; `none` is a syntax error. -/
def lexStep (st : LexState) (c : Char) : Option LexState :=
  match st.mode with
  | .idle => lexIdle st.tokens c
  | .inString acc =>
    if c = '"' then some ⟨.idle, st.tokens ++ [.str acc]⟩
    else if c = '\\' then some ⟨.escape acc, st.tokens⟩
    else if c.toNat < 0x20 then none
    else some ⟨.inString (acc ++ utf16 c), st.tokens⟩
  | .escape acc =>
    if c = '"' || c = '\\' || c = '/' then some ⟨.inString (acc ++ [c.toNat]), st.tokens⟩
    else if c = 'b' then some ⟨.inString (acc ++ [8]), st.tokens⟩
    else if c = 'f' then some ⟨.inString (acc ++ [12]), st.tokens⟩
    else if c = 'n' then some ⟨.inString (acc ++ [10]), st.tokens⟩
    else if c = 'r' then some ⟨.inString (acc ++ [13]), st.tokens⟩
    else if c = 't' then some ⟨.inString (acc ++ [9]), st.tokens⟩
    else if c = 'u' then some ⟨.hex acc [], st.tokens⟩
    else none
  | .hex acc digits =>
    match hexValue c with
    | none => none
    | some d =>
      if digits.length = 3 then
        some ⟨.inString (acc ++ [digits.foldl (fun n h => 16 * n + h) 0 * 16 + d]), st.tokens⟩
      else some ⟨.hex acc (digits ++ [d]), st.tokens⟩
  | .inNumber ns lexeme =>
    match numStep ns c with
    | some ns2 => some ⟨.inNumber ns2 (lexeme ++ [c]), st.tokens⟩
    | none =>
      if ns.accepting then lexIdle (st.tokens ++ [.num lexeme]) c else none
  | .inLiteral rest tok =>
    match rest with
    | [] => none
    | r :: rs =>
      if c = r then
        (if rs.isEmpty then some ⟨.idle, st.tokens ++ [tok]⟩
         else some ⟨.inLiteral rs tok, st.tokens⟩)
      else none

/-- The tokens of a text; `none` is a syntax error. -/
def lex (s : String) : Option (List Token) :=
  match s.toList.foldlM lexStep ⟨.idle, []⟩ with
  | none => none
  | some st =>
    match st.mode with
    | .idle => some st.tokens
    | .inNumber ns lexeme => if ns.accepting then some (st.tokens ++ [.num lexeme]) else none
    | _ => none

/-- An array or object under construction. -/
inductive Frame where
  | arr (items : List JValue)
  | obj (members : List (JsStr × JValue)) (key : Option JsStr)

/-- What the grammar allows next. -/
inductive Expect where
  | value | valueOrClose | keyOrClose | key | colon | commaOrClose
  | eof (v : JValue)

/-- The parser: the open arrays and objects, innermost first. -/
structure ParseState where
  stack : List Frame
  expect : Expect

/-- A value is complete: it goes into the innermost open array or object. -/
def complete (v : JValue) : List Frame → Option ParseState
  | [] => some ⟨[], .eof v⟩
  | .arr items :: rest => some ⟨.arr (items ++ [v]) :: rest, .commaOrClose⟩
  | .obj members (some k) :: rest => some ⟨.obj (members ++ [(k, v)]) none :: rest, .commaOrClose⟩
  | .obj _ none :: _ => none

/-- A token where a value starts. -/
def parseValue (stack : List Frame) : Token → Option ParseState
  | .str s => complete (.string s) stack
  | .num l => complete (.number l) stack
  | .tru => complete (.bool true) stack
  | .fls => complete (.bool false) stack
  | .nul => complete .null stack
  | .lbracket => some ⟨.arr [] :: stack, .valueOrClose⟩
  | .lbrace => some ⟨.obj [] none :: stack, .keyOrClose⟩
  | _ => none

/-- A token where a member name is due. -/
def parseKey (stack : List Frame) : Token → Option ParseState
  | .str k =>
    match stack with
    | .obj members none :: rest => some ⟨.obj members (some k) :: rest, .colon⟩
    | _ => none
  | _ => none

/-- A closing bracket or brace: the innermost array or object is complete. -/
def parseClose (stack : List Frame) : Token → Option ParseState
  | .rbracket =>
    match stack with
    | .arr items :: rest => complete (.array items) rest
    | _ => none
  | .rbrace =>
    match stack with
    | .obj members none :: rest => complete (.object members) rest
    | _ => none
  | _ => none

/-- One token; `none` is a syntax error. -/
def parseStep (st : ParseState) (tok : Token) : Option ParseState :=
  match st.expect with
  | .value => parseValue st.stack tok
  | .valueOrClose =>
    match tok with
    | .rbracket => parseClose st.stack tok
    | _ => parseValue st.stack tok
  | .keyOrClose =>
    match tok with
    | .rbrace => parseClose st.stack tok
    | _ => parseKey st.stack tok
  | .key => parseKey st.stack tok
  | .colon =>
    match tok with
    | .colon => some ⟨st.stack, .value⟩
    | _ => none
  | .commaOrClose =>
    match tok with
    | .comma =>
      match st.stack with
      | .arr _ :: _ => some ⟨st.stack, .value⟩
      | .obj _ none :: _ => some ⟨st.stack, .key⟩
      | _ => none
    | _ => parseClose st.stack tok
  | .eof _ => none

/-- The builtin `JSON.parse` on a text; `none` is the `SyntaxError` it throws. -/
def JSON_parse (s : String) : Option JValue :=
  match lex s with
  | none => none
  | some tokens =>
    match tokens.foldlM parseStep ⟨[], .value⟩ with
    | some ⟨_, .eof v⟩ => some v
    | _ => none

/-! ## `index.js`: the socket message handler (lines 139-142) -/

/-- The property read `data.event` on a value that is not `null`; `none` is
`undefined`.  Of two members with one name the later one counts. -/
def JValue.event : JValue → Option JValue
  | .object members => (members.reverse.find? (fun m => m.1 == toUtf16 "event")).map (·.2)
  | _ => none

/-- The comparison `value === 'commit'`. -/
def isCommit : Option JValue → Bool
  | some (.string s) => s == toUtf16 "commit"
  | _ => false

/-- How a run of the message handler ends. -/
inductive Handled where
  /-- The handler returned after this many calls of `commit()`. -/
  | returned (commitRuns : Nat)
  /-- The handler threw an error of this name before any call of `commit()`. -/
  | threw (name : String)
deriving DecidableEq, Repr

/-- The handler `ev => ...` of the event `message`. -/
def onMessage (ev : String) : Handled :=
  match JSON_parse ev with
  | none => .threw "SyntaxError"
  | some .null => .threw "TypeError"
  | some data => if isCommit data.event then .returned 1 else .returned 0

/-! ## `plugin-resolve.js` -/

/-- A value held by a property of an object. -/
inductive JsVal where
  | undefined
  | str (s : String)
  | ref (address : Nat)
  | other (tag : Nat)
deriving DecidableEq, Repr

/-- An object: its own enumerable properties, the latest binding of a name
first. -/
abbrev Obj := List (String × JsVal)

/-- The property read `o[name]`. -/
def Obj.get (o : Obj) (name : String) : JsVal :=
  (o.lookup name).getD .undefined

/-- The objects alive, by address. -/
abbrev Heap := List Obj

/-- An object literal: the new heap and the address of the new object. -/
def alloc (heap : Heap) (o : Obj) : Heap × Nat :=
  (heap ++ [o], heap.length)

/-- The object at an address. -/
def deref (heap : Heap) (address : Nat) : Obj :=
  heap.getD address []

/-- The call `Object.assign(target, ...sources)`: the properties of each source
are written to the target object, in place. -/
def objectAssign (heap : Heap) (target : Nat) (sources : List Nat) : Heap :=
  sources.foldl (fun h src => h.set target (deref h src ++ deref h target)) heap

/-- The characters of `id` after a leading `glslify`, if it starts so. -/
def afterGlslify (id : String) : Option (List Char) :=
  match id.toList with
  | 'g' :: 'l' :: 's' :: 'l' :: 'i' :: 'f' :: 'y' :: rest => some rest
  | _ => none

/-- The test `/^glslify([\\/].*)?$/.test(id)`: the text `glslify`, then either
the end of `id` or a separator followed, up to the end of `id`, by characters
the `.` accepts. -/
def matchesGlslify (id : String) : Bool :=
  match afterGlslify id with
  | none => false
  | some [] => true
  | some (c :: rest) => (c == '\\' || c == '/') && rest.all (fun d => !isLineTerminator d)

/-- The constant `basedir` of the plugin. -/
def basedir (env : Env) : String :=
  env.resolve2 env.__dirname "../"

/-- What the original resolver is called with. -/
structure ResolverCall where
  id : String
  /-- The address of the options object. -/
  opts : Nat
  heap : Heap
deriving DecidableEq, Repr

/-- Lines 10-14 of the patched `_bresolve`: the arguments it passes on. -/
def patchedCall (env : Env) (id : String) (opts : Nat) (heap : Heap) : ResolverCall :=
  if matchesGlslify id then
    let a1 := alloc heap []
    let a2 := alloc a1.1 [("basedir", JsVal.str (basedir env))]
    { id := id, opts := a1.2, heap := objectAssign a2.1 a1.2 [opts, a2.2] }
  else
    { id := id, opts := opts, heap := heap }

/-- The arguments of one call of the caller's callback `cb`. -/
inductive CbCall (ρ π : Type) where
  /-- The call `cb(err)`. -/
  | failure (err : JsError)
  /-- The call `cb(null, result, pkg)`. -/
  | success (result : ρ) (pkg : π)
deriving DecidableEq, Repr

/-- The arrow function of lines 14-23, run on one report of the resolver with
`opts` the options object it closes over: the call of `cb` it makes, or the
name of the error that `path.relative` throws for a `filename` that is not a
string. -/
def resolverCallback {ρ π : Type} (env : Env) (id : String) (opts : Obj)
    (report : Except JsError (ρ × π)) : Except String (CbCall ρ π) :=
  match report with
  | .error _ =>
    match opts.get "filename" with
    | .str filename =>
      .ok (.failure (newError env
        ("Cannot find module \x27" ++ id ++ "\x27 from \x27" ++
          env.relative (env.pathDirname env.cwd) filename ++ "\x27")))
    | _ => .error "TypeError"
  | .ok (result, pkg) => .ok (.success result pkg)

/-- The patched `bundler._bresolve`.  The original resolver is outside the
sources: `resolver` gives the reports it makes to its callback, in order, for
the arguments it is called with.  The result is what each report does. -/
def bresolve {ρ π : Type} (env : Env)
    (resolver : ResolverCall → List (Except JsError (ρ × π)))
    (id : String) (opts : Nat) (heap : Heap) : List (Except String (CbCall ρ π)) :=
  let call := patchedCall env id opts heap
  (resolver call).map (resolverCallback env id (deref call.heap call.opts))

/-! ## A concrete environment for the closed examples -/

/-- A sanitizer in the manner of `filenamify`: the characters no file name may
hold become `!`. -/
def replaceReserved (s : String) : String :=
  String.mk (s.toList.map (fun c =>
    if c.toNat < 0x20 || "<>:\"/\\|?*".toList.contains c then '!' else c))

/-- A POSIX `path.relative` for a target that is already relative or lies under
`base`. -/
def relativeUnder (base target : String) : String :=
  if jsStartsWith target.toList (base ++ "/").toList then
    String.mk (target.toList.drop (base.length + 1))
  else target

/-- An environment on a POSIX machine at a fixed instant, with an installer that
succeeds without touching anything. -/
def sampleEnv : Env where
  cwd := "/home/me/art"
  __dirname := "/opt/canvas-sketch-cli/src"
  now := 1520139967000
  dateformat := fun _ _ => "2018.03.04-05.06.07"
  filenamify := replaceReserved
  join := fun a b => a ++ "/" ++ b
  relative := relativeUnder
  pathDirname := fun _ => "/home/me"
  resolve2 := fun _ _ => "/opt/canvas-sketch-cli"
  resolve3 := fun a b c => a ++ "/" ++ b ++ "/" ++ c
  bold := fun s => s
  red := fun s => s
  green := fun s => s
  stackOf := fun m => "Error: " ++ m ++ "\n    at start (index.js)"
  resolveSync := fun fs id base =>
    if existsSync fs (base ++ "/" ++ id) then some (base ++ "/" ++ id) else none
  install := fun _ _ w => (w, none)

/-- A heap with one object: the options of a caller whose project lies in the
working directory. -/
def sampleHeap : Heap :=
  [[("basedir", JsVal.str "/home/me/art"), ("filename", JsVal.str "/home/me/art/sketch.js")]]

/-- A resolver that reports a failure and then a success. -/
def sampleResolver (_ : ResolverCall) : List (Except JsError (String × Nat)) :=
  [.error { message := "ENOENT", stack := "" }, .ok ("/home/me/art/node_modules/x/index.js", 7)]

/-- A command line `canvas-sketch --new`. -/
def newArgv : Argv :=
  { entry := none, dir := none, openBrowser := false, install := true,
    template := "default", new := NewFlag.flag }

/-- A command line `canvas-sketch --new --template=nosuch`. -/
def unknownTemplateArgv : Argv :=
  { entry := none, dir := none, openBrowser := false, install := true,
    template := "nosuch", new := NewFlag.flag }

/-- A disk where the sketch of this very second is already there. -/
def collisionWorld : World :=
  { fs := [("sketches", Node.dir),
      ("sketches/2018.03.04-05.06.07.js", Node.file "const old = 1;"),
      ("/opt/canvas-sketch-cli/src/templates/default.js", Node.file "const sketch = 0;")],
    stdout := [], stderr := [] }

/-- A disk with the default template and no directory `sketches` yet. -/
def freshWorld : World :=
  { fs := [("/opt/canvas-sketch-cli/src/templates/default.js", Node.file "const sketch = 0;")],
    stdout := [], stderr := [] }

/-- A disk where `sketches` is a regular file. -/
def blockedWorld : World :=
  { fs := [("sketches", Node.file "notes"),
      ("/opt/canvas-sketch-cli/src/templates/default.js", Node.file "const sketch = 0;")],
    stdout := [], stderr := [] }

/-! ## Lemmas on the string primitives -/

theorem splitChars_ne_nil (sep : Char) (cs : List Char) : splitChars sep cs ≠ [] := by
  induction cs with
  | nil => simp [splitChars]
  | cons c cs ih =>
    unfold splitChars
    split
    · simp
    · split <;> simp

theorem jsSplit_ne_nil (sep : Char) (s : String) : jsSplit sep s ≠ [] := by
  unfold jsSplit
  intro h
  exact splitChars_ne_nil sep s.toList (List.map_eq_nil_iff.mp h)

theorem findIndex_none {α : Type} (p : α → Bool) (l : List α)
    (h : ∀ x ∈ l, p x = false) : findIndex p l = none := by
  induction l with
  | nil => rfl
  | cons x xs ih =>
    have hx : p x = false := h x (List.mem_cons_self _ _)
    have hxs : findIndex p xs = none := ih (fun y hy => h y (List.mem_cons_of_mem _ hy))
    simp [findIndex, hx, hxs]

theorem findIndex_first {α : Type} (p : α → Bool) (l : List α) (i : Nat) (a : α)
    (hi : l[i]? = some a) (ha : p a = true)
    (hlt : ∀ j b, j < i → l[j]? = some b → p b = false) : findIndex p l = some i := by
  induction l generalizing i with
  | nil => simp at hi
  | cons x xs ih =>
    cases i with
    | zero =>
      simp at hi
      subst hi
      simp [findIndex, ha]
    | succ k =>
      have hx : p x = false := hlt 0 x (Nat.succ_pos _) (by simp)
      have hk : findIndex p xs = some k := by
        apply ih k
        · simpa using hi
        · intro j b hj hb
          exact hlt (j + 1) b (Nat.succ_lt_succ hj) (by simpa using hb)
      simp [findIndex, hx, hk]

theorem findIndex_head {α : Type} (p : α → Bool) (x : α) (xs : List α)
    (hx : p x = true) : findIndex p (x :: xs) = some 0 := by
  simp [findIndex, hx]

theorem endIdx_pos (lines : List String) : 0 < endIdx lines := by
  unfold endIdx
  split <;> omega

theorem stripJs_of_suffix (s : String) (r : List Char)
    (h : s.toList = r ++ ['.', 'j', 's']) : stripJs s = String.mk r := by
  have hr : s.toList.reverse = 's' :: 'j' :: '.' :: r.reverse := by
    rw [h]; simp
  unfold stripJs
  rw [hr]
  simp

theorem stripJs_of_not_suffix (s : String)
    (h : ¬ ∃ r, s.toList = r ++ ['.', 'j', 's']) : stripJs s = s := by
  unfold stripJs
  split
  · rename_i r hr
    exfalso
    apply h
    refine ⟨r.reverse, ?_⟩
    have := congrArg List.reverse hr
    simpa using this
  · rfl

theorem startsWithDotOrSlash_iff (e : String) :
    startsWithDotOrSlash e = true ↔
      (e.toList.head? = some '.' ∨ e.toList.head? = some '/') := by
  unfold startsWithDotOrSlash
  cases e.toList with
  | nil => simp
  | cons c cs => simp

/-! ## Lemmas on the heap and the resolution patch -/

theorem deref_append_left (heap tail : Heap) (a : Nat) (h : a < heap.length) :
    deref (heap ++ tail) a = deref heap a := by
  unfold deref
  simp [List.getD_eq_getElem?_getD, List.getElem?_append_left h]

theorem deref_append_length (heap tail : Heap) (o : Obj) :
    deref (heap ++ o :: tail) heap.length = o := by
  unfold deref
  rw [List.getD_eq_getElem?_getD, List.getElem?_append_right (Nat.le_refl _)]
  simp

theorem deref_set_same (heap : Heap) (a : Nat) (o : Obj) (h : a < heap.length) :
    deref (heap.set a o) a = o := by
  unfold deref
  simp [List.getD_eq_getElem?_getD, h]

theorem deref_set_other (heap : Heap) (a b : Nat) (o : Obj) (h : a ≠ b) :
    deref (heap.set a o) b = deref heap b := by
  unfold deref
  simp [List.getD_eq_getElem?_getD, List.getElem?_set_ne h]

theorem patchedCall_matched (env : Env) (id : String) (opts : Nat) (heap : Heap)
    (hm : matchesGlslify id = true) (ho : opts < heap.length) :
    (patchedCall env id opts heap).id = id ∧
    deref (patchedCall env id opts heap).heap (patchedCall env id opts heap).opts =
      ("basedir", JsVal.str (basedir env)) :: deref heap opts ∧
    (∀ a, a < heap.length → deref (patchedCall env id opts heap).heap a = deref heap a) := by
  have hcall : patchedCall env id opts heap =
      { id := id, opts := heap.length,
        heap := objectAssign (heap ++ [[]] ++ [[("basedir", JsVal.str (basedir env))]])
          heap.length [opts, (heap ++ [[]]).length] } := by
    simp [patchedCall, hm, alloc]
  rw [hcall]
  have hlen : heap.length < (heap ++ [[]] ++ [[("basedir", JsVal.str (basedir env))]]).length := by
    simp
  have h2 : heap ++ [[]] ++ [[("basedir", JsVal.str (basedir env))]] =
      heap ++ [] :: [[("basedir", JsVal.str (basedir env))]] := by simp
  have hopts : deref (heap ++ [[]] ++ [[("basedir", JsVal.str (basedir env))]]) opts =
      deref heap opts := by
    rw [List.append_assoc]; exact deref_append_left _ _ _ ho
  have htgt : deref (heap ++ [[]] ++ [[("basedir", JsVal.str (basedir env))]]) heap.length =
      [] := by
    rw [h2]; exact deref_append_length _ _ _
  have hlit : deref (heap ++ [[]] ++ [[("basedir", JsVal.str (basedir env))]])
      (heap ++ [[]]).length = [("basedir", JsVal.str (basedir env))] :=
    deref_append_length _ _ _
  have hne : heap.length ≠ (heap ++ [[]]).length := by simp
  refine ⟨rfl, ?_, ?_⟩
  · simp only [objectAssign, List.foldl]
    rw [deref_set_same _ _ _ (by simp), deref_set_same _ _ _ hlen,
      deref_set_other _ _ _ _ hne, hlit, hopts, htgt]
    simp
  · intro a ha
    have hne2 : heap.length ≠ a := (Nat.ne_of_lt ha).symm
    simp only [objectAssign, List.foldl]
    rw [deref_set_other _ _ _ _ hne2, deref_set_other _ _ _ _ hne2, List.append_assoc]
    exact deref_append_left _ _ _ ha

theorem afterGlslify_eq_some (id : String) (rest : List Char) :
    afterGlslify id = some rest ↔
      id.toList = 'g' :: 'l' :: 's' :: 'l' :: 'i' :: 'f' :: 'y' :: rest := by
  unfold afterGlslify
  split
  · rename_i r h
    rw [h]
    simp
  · rename_i hnot
    constructor
    · intro h
      cases h
    · intro h
      exact absurd h (hnot rest)

theorem matchesGlslify_iff (id : String) :
    matchesGlslify id = true ↔
      (id = "glslify" ∨ ∃ sep rest, (sep = '/' ∨ sep = '\\') ∧
        id.toList = "glslify".toList ++ sep :: rest ∧
        ∀ c ∈ rest, isLineTerminator c = false) := by
  have hlit : "glslify".toList = ['g', 'l', 's', 'l', 'i', 'f', 'y'] := by decide
  rw [hlit]
  unfold matchesGlslify
  cases hq : afterGlslify id with
  | none =>
    simp only [Bool.false_eq_true, false_iff]
    rintro (h | ⟨sep, rest, _, h, _⟩)
    · subst h
      simp [afterGlslify] at hq
    · have := (afterGlslify_eq_some id (sep :: rest)).mpr (by simpa using h)
      rw [hq] at this
      cases this
  | some tail =>
    have htail := (afterGlslify_eq_some id tail).mp hq
    cases tail with
    | nil =>
      simp only [true_iff]
      left
      apply String.ext
      rw [show id.data = id.toList from rfl, htail]
    | cons c rest =>
      constructor
      · intro h
        right
        simp only [Bool.and_eq_true, Bool.or_eq_true, beq_iff_eq, List.all_eq_true,
          Bool.not_eq_true'] at h
        exact ⟨c, rest, h.1.symm, by simpa using htail, h.2⟩
      · rintro (h | ⟨sep, rest2, hsep, h, hall⟩)
        · subst h
          simp [afterGlslify] at hq
        · rw [htail] at h
          simp only [List.cons_append, List.nil_append, List.cons.injEq, true_and] at h
          obtain ⟨h1, h2⟩ := h
          subst h1 h2
          simp only [Bool.and_eq_true, Bool.or_eq_true, beq_iff_eq, List.all_eq_true,
            Bool.not_eq_true']
          exact ⟨hsep.symm, hall⟩

theorem Obj.get_cons_ne (o : Obj) (name key : String) (v : JsVal) (h : name ≠ key) :
    Obj.get ((key, v) :: o) name = Obj.get o name := by
  unfold Obj.get
  have hb : (name == key) = false := by simpa using h
  simp [List.lookup, hb]

theorem Obj.get_cons_self (o : Obj) (key : String) (v : JsVal) :
    Obj.get ((key, v) :: o) key = v := by
  unfold Obj.get
  simp [List.lookup]

theorem patchedCall_unmatched (env : Env) (id : String) (opts : Nat) (heap : Heap)
    (hm : matchesGlslify id = false) :
    patchedCall env id opts heap = { id := id, opts := opts, heap := heap } := by
  simp [patchedCall, hm]

theorem patchedCall_filename (env : Env) (id : String) (opts : Nat) (heap : Heap)
    (ho : opts < heap.length) :
    (deref (patchedCall env id opts heap).heap (patchedCall env id opts heap).opts).get
      "filename" = (deref heap opts).get "filename" := by
  cases hm : matchesGlslify id with
  | false => rw [patchedCall_unmatched env id opts heap hm]
  | true =>
    rw [(patchedCall_matched env id opts heap hm ho).2.1]
    exact Obj.get_cons_ne _ _ _ _ (by decide)

/-! ## Lemmas on the file system -/

theorem mkdirp_of_isDirectory (env : Env) (fs : FS) (p : String)
    (h : isDirectory fs p = true) : mkdirp env fs p = .ok fs := by
  unfold isDirectory at h
  unfold mkdirp
  split at h <;> simp_all

theorem mkdirp_readFileSync (env : Env) (fs fs1 : FS) (p : String)
    (h : mkdirp env fs p = .ok fs1) (q : String) :
    readFileSync fs1 q = readFileSync fs q := by
  unfold mkdirp at h
  split at h
  · cases h; rfl
  · cases h
  · rename_i hnone
    cases h
    unfold readFileSync
    by_cases hq : q = p
    · subst hq
      simp [List.lookup, hnone]
    · have hb : (q == p) = false := by simpa using hq
      simp [List.lookup, hb]

theorem start_of_materialize_error (env : Env) (argv : Argv) (w w1 : World) (err : JsError)
    (h : materialize env argv w = (w1, .error err)) :
    start env argv w = (w1, .rejected err) := by
  unfold start
  rw [h]

theorem main_of_rejected (env : Env) (argv : Argv) (w w1 : World) (err : JsError)
    (h : start env argv w = (w1, .rejected err)) :
    main env argv w = (w1.logError (errorReport env err), .ended 0) := by
  unfold main
  rw [h]

/-! ## The claims -/

/-- C6: the path handed to the module resolver is the entry itself when the
entry begins with `.` or `/`, and the entry behind `./` otherwise; it always
begins with `.` or `/`, and normalising it again changes nothing. -/
theorem entryPath_spec (e : String) :
    ((e.toList.head? = some '.' ∨ e.toList.head? = some '/') → entryPath e = e) ∧
    (¬ (e.toList.head? = some '.' ∨ e.toList.head? = some '/') →
      entryPath e = "./" ++ e) ∧
    ((entryPath e).toList.head? = some '.' ∨ (entryPath e).toList.head? = some '/') ∧
    entryPath (entryPath e) = entryPath e := by
  have hiff := startsWithDotOrSlash_iff e
  have hcases : startsWithDotOrSlash (entryPath e) = true := by
    unfold entryPath
    by_cases h : startsWithDotOrSlash e = true
    · simp [h]
    · simp only [h]
      simp [startsWithDotOrSlash, String.data_append]
  refine ⟨?_, ?_, ?_, ?_⟩
  · intro h
    simp [entryPath, hiff.mpr h]
  · intro h
    have hf : ¬ startsWithDotOrSlash e = true := fun hs => h (hiff.mp hs)
    simp [entryPath, hf]
  · exact (startsWithDotOrSlash_iff (entryPath e)).mp hcases
  · show (if startsWithDotOrSlash (entryPath e) = true then entryPath e
      else "./" ++ entryPath e) = entryPath e
    rw [if_pos hcases]

/-- C10: the handler splits the lines of a stack into a message part and a trace
part: the message part is never empty; the two parts in order are the lines of
the stack; the message part is the lines before the first line that, trimmed,
starts with `at ` when that line is not the first one, and the first line alone
when there is no such line or the first line is one. -/
theorem splitStack_spec (stack : String) :
    (splitStack stack).1 ≠ [] ∧
    (splitStack stack).1 ++ (splitStack stack).2 = jsSplit '\n' stack ∧
    (∀ i l, 0 < i → (jsSplit '\n' stack)[i]? = some l → isAtLine l = true →
      (∀ j l2, j < i → (jsSplit '\n' stack)[j]? = some l2 → isAtLine l2 = false) →
      (splitStack stack).1 = (jsSplit '\n' stack).take i) ∧
    (∃ first rest, jsSplit '\n' stack = first :: rest ∧
      (((∀ l ∈ jsSplit '\n' stack, isAtLine l = false) ∨ isAtLine first = true) →
        (splitStack stack).1 = [first])) := by
  have hne := jsSplit_ne_nil '\n' stack
  have hpos := endIdx_pos (jsSplit '\n' stack)
  refine ⟨?_, ?_, ?_, ?_⟩
  · show (jsSplit '\n' stack).take (endIdx (jsSplit '\n' stack)) ≠ []
    cases hl : jsSplit '\n' stack with
    | nil => exact absurd hl hne
    | cons x xs =>
      rw [hl] at hpos
      obtain ⟨k, hk⟩ := Nat.exists_eq_succ_of_ne_zero (Nat.pos_iff_ne_zero.mp hpos)
      rw [hk]
      simp
  · exact List.take_append_drop _ _
  · intro i l hi hl hat hbefore
    show (jsSplit '\n' stack).take (endIdx (jsSplit '\n' stack)) = _
    have hfind := findIndex_first isAtLine _ i l hl hat hbefore
    obtain ⟨k, hk⟩ := Nat.exists_eq_succ_of_ne_zero (Nat.pos_iff_ne_zero.mp hi)
    subst hk
    simp [endIdx, hfind]
  · cases hl : jsSplit '\n' stack with
    | nil => exact absurd hl hne
    | cons x xs =>
      refine ⟨x, xs, rfl, ?_⟩
      intro hcond
      show (jsSplit '\n' stack).take (endIdx (jsSplit '\n' stack)) = _
      rw [hl]
      rcases hcond with hnone | hfirst
      · have hfind := findIndex_none isAtLine (x :: xs) hnone
        simp [endIdx, hfind]
      · have hfind := findIndex_head isAtLine x xs hfirst
        simp [endIdx, hfind]

/-- C5, refuted as stated: for the suffix `.js` the stripped suffix is empty, yet
the generated name keeps the separator and so is not the sanitized
`<date>.js`. -/
theorem generateFileName_dotJs_counterexample :
    stripJs ".js" = "" ∧
    generateFileName sampleEnv (some ".js") = "2018.03.04-05.06.07-.js" ∧
    generateFileName sampleEnv (some ".js") ≠
      sampleEnv.filenamify
        (sampleEnv.dateformat sampleEnv.now "yyyy.mm.dd-HH.MM.ss" ++ ".js") := by
  decide

/-- C5, amended: with `D` the date token and `S1` the suffix without one trailing
`.js`, the generated name is the sanitized `D-S1.js` when a non-empty suffix is
given (the separator is decided on the suffix as given, before the strip), and
the sanitized `D.js` when the suffix is omitted or empty; the unsanitized name
always begins with `D` and ends with `S1.js`. -/
theorem generateFileName_spec (env : Env) (suffix : Option String) :
    (∀ r, (suffix.getD "").toList = r ++ ['.', 'j', 's'] →
      stripJs (suffix.getD "") = String.mk r) ∧
    ((¬ ∃ r, (suffix.getD "").toList = r ++ ['.', 'j', 's']) →
      stripJs (suffix.getD "") = suffix.getD "") ∧
    (suffix.getD "" ≠ "" →
      generateFileName env suffix =
        env.filenamify (env.dateformat env.now "yyyy.mm.dd-HH.MM.ss" ++ "-" ++
          stripJs (suffix.getD "") ++ ".js")) ∧
    (suffix.getD "" = "" →
      generateFileName env suffix =
        env.filenamify (env.dateformat env.now "yyyy.mm.dd-HH.MM.ss" ++ ".js")) ∧
    (∃ separator, generateFileName env suffix =
        env.filenamify (env.dateformat env.now "yyyy.mm.dd-HH.MM.ss" ++ separator ++
          stripJs (suffix.getD "") ++ ".js")) := by
  refine ⟨fun r h => stripJs_of_suffix _ r h, fun h => stripJs_of_not_suffix _ h, ?_, ?_, ?_⟩
  · intro h
    simp [generateFileName, fileNameOf, h]
  · intro h
    have hs : stripJs "" = "" := by decide
    simp [generateFileName, fileNameOf, h, hs]
  · exact ⟨_, rfl⟩

/-- C1: on the reserved url the commit computation runs once, `next` is not
called, and the response is 200 with the JSON of the record when the
computation succeeds and 500 with the message of the error as plain text when
it fails; on every other url `next` is called once with `null`, no commit
computation runs and the response is untouched. -/
theorem middleware_spec {ρ : Type} (stringify : ρ → String) (commit : Except JsError ρ)
    (url : String) (res : Response) :
    (url = "/canvas-sketch-client/commit-hash" →
      (middleware stringify commit url res).commitRuns = 1 ∧
      (middleware stringify commit url res).nextCalls = [] ∧
      (∀ record, commit = .ok record →
        (middleware stringify commit url res).res.statusCode = 200 ∧
        (middleware stringify commit url res).res.getHeader "Content-Type" =
          some "application/json" ∧
        (middleware stringify commit url res).res.body = res.body ++ [stringify record] ∧
        (middleware stringify commit url res).res.finished = true) ∧
      (∀ err, commit = .error err →
        (middleware stringify commit url res).res.statusCode = 500 ∧
        (middleware stringify commit url res).res.getHeader "Content-Type" =
          some "text/plain" ∧
        (middleware stringify commit url res).res.body = res.body ++ [err.message] ∧
        (middleware stringify commit url res).res.finished = true)) ∧
    (url ≠ "/canvas-sketch-client/commit-hash" →
      (middleware stringify commit url res).nextCalls = [none] ∧
      (middleware stringify commit url res).commitRuns = 0 ∧
      (middleware stringify commit url res).res = res) := by
  constructor
  · intro hurl
    subst hurl
    cases commit with
    | ok record =>
      refine ⟨rfl, rfl, ?_, ?_⟩
      · intro r hr
        cases hr
        simp [middleware, Response.setHeader, Response.getHeader, Response.endWith]
      · intro e he
        cases he
    | error err =>
      refine ⟨rfl, rfl, ?_, ?_⟩
      · intro r hr
        cases hr
      · intro e he
        cases he
        simp [middleware, Response.setHeader, Response.getHeader, Response.endWith]
  · intro hurl
    simp [middleware, hurl]

/-- C2, refuted as stated: a frame that is not JSON makes the handler throw the
`SyntaxError` of `JSON.parse`, and the frame `null`, which is JSON, makes it
throw a `TypeError`. -/
theorem onMessage_malformed_counterexample :
    (JSON_parse "not json").isNone = true ∧
    onMessage "not json" = Handled.threw "SyntaxError" ∧
    onMessage "\x7b\"event\":" = Handled.threw "SyntaxError" ∧
    onMessage "null" = Handled.threw "TypeError" := by
  decide

/-- C2, amended: a frame that parses to a value other than `null` triggers one
commit computation when the `event` of the value is the string `commit` and
none otherwise, and the handler returns; a frame that is not well-formed JSON
triggers none and the handler throws a `SyntaxError`; the frame `null`
triggers none and the handler throws a `TypeError`. -/
theorem onMessage_spec (ev : String) :
    (∀ data, JSON_parse ev = some data → data ≠ JValue.null →
      isCommit data.event = true → onMessage ev = Handled.returned 1) ∧
    (∀ data, JSON_parse ev = some data → data ≠ JValue.null →
      isCommit data.event = false → onMessage ev = Handled.returned 0) ∧
    (JSON_parse ev = none → onMessage ev = Handled.threw "SyntaxError") ∧
    (JSON_parse ev = some JValue.null → onMessage ev = Handled.threw "TypeError") := by
  refine ⟨?_, ?_, ?_, ?_⟩
  · intro data hp hn hc
    unfold onMessage
    rw [hp]
    cases data <;> simp_all
  · intro data hp hn hc
    unfold onMessage
    rw [hp]
    cases data <;> simp_all
  · intro hp
    unfold onMessage
    rw [hp]
  · intro hp
    unfold onMessage
    rw [hp]

/-- The frames of the specification: the commit frame triggers one computation,
an unrelated frame none, and both let the handler return. -/
theorem onMessage_examples :
    onMessage "\x7b\"event\":\"commit\"\x7d" = Handled.returned 1 ∧
    onMessage "\x7b\"event\":\"other\"\x7d" = Handled.returned 0 ∧
    onMessage "[1, 2.5e3, \"a\", true, \x7b\"event\": \"commit\"\x7d]" = Handled.returned 0 := by
  decide

/-- C3, refuted as stated: the specifier `glslify/a\nb` is `glslify`, a `/` and
a subpath, yet it is passed on with the options of the caller, whose `basedir`
is the working directory and not the installation directory. -/
theorem patchedCall_newline_counterexample :
    patchedCall sampleEnv "glslify/a\nb" 0 sampleHeap =
      { id := "glslify/a\nb", opts := 0, heap := sampleHeap } ∧
    (deref sampleHeap 0).get "basedir" = JsVal.str "/home/me/art" ∧
    basedir sampleEnv = "/opt/canvas-sketch-cli" := by
  decide

/-- C3, amended: the original resolver is called with the same specifier and
(a) when the specifier is `glslify`, or `glslify` followed by `/` or `\` and a
subpath without line terminator, with a new options object whose `basedir` is
the installation directory and whose other properties are those of the
caller, every object alive before the call being left as it was; (b) for every
other specifier, with the options object of the caller and an unchanged
heap. -/
theorem patchedCall_spec (env : Env) (id : String) (opts : Nat) (heap : Heap)
    (ho : opts < heap.length) :
    ((id = "glslify" ∨ ∃ sep rest, (sep = '/' ∨ sep = '\\') ∧
        id.toList = "glslify".toList ++ sep :: rest ∧
        ∀ c ∈ rest, isLineTerminator c = false) →
      (patchedCall env id opts heap).id = id ∧
      (deref (patchedCall env id opts heap).heap (patchedCall env id opts heap).opts).get
        "basedir" = JsVal.str (basedir env) ∧
      (∀ name, name ≠ "basedir" →
        (deref (patchedCall env id opts heap).heap (patchedCall env id opts heap).opts).get
          name = (deref heap opts).get name) ∧
      (∀ a, a < heap.length → deref (patchedCall env id opts heap).heap a = deref heap a)) ∧
    (¬ (id = "glslify" ∨ ∃ sep rest, (sep = '/' ∨ sep = '\\') ∧
        id.toList = "glslify".toList ++ sep :: rest ∧
        ∀ c ∈ rest, isLineTerminator c = false) →
      patchedCall env id opts heap = { id := id, opts := opts, heap := heap }) := by
  constructor
  · intro h
    have hm := (matchesGlslify_iff id).mpr h
    obtain ⟨h1, h2, h3⟩ := patchedCall_matched env id opts heap hm ho
    refine ⟨h1, ?_, ?_, h3⟩
    · rw [h2]
      exact Obj.get_cons_self _ _ _
    · intro name hname
      rw [h2]
      exact Obj.get_cons_ne _ _ _ _ hname
  · intro h
    have hm : matchesGlslify id = false := by
      cases hq : matchesGlslify id with
      | false => rfl
      | true => exact absurd ((matchesGlslify_iff id).mp hq) h
    exact patchedCall_unmatched env id opts heap hm

/-- The amended C3 at the specifier `glslify/foo` of the specification. -/
theorem patchedCall_spec_witness :
    0 < sampleHeap.length ∧
    (deref (patchedCall sampleEnv "glslify/foo" 0 sampleHeap).heap
      (patchedCall sampleEnv "glslify/foo" 0 sampleHeap).opts).get "basedir" =
        JsVal.str (basedir sampleEnv) :=
  ⟨by decide,
    ((patchedCall_spec sampleEnv "glslify/foo" 0 sampleHeap (by decide)).1
      (Or.inr ⟨'/', ['f', 'o', 'o'], Or.inl rfl, by decide, by decide⟩)).2.1⟩

/-- C4: the callback of the caller is called once for each report of the
original resolver, in order: for a failure with one new error whose message
names the specifier and the requiring file relative to the parent of the working
directory, and nothing else; for a success with `null`, the result and the
package as reported. -/
theorem bresolve_spec {ρ π : Type} (env : Env)
    (resolver : ResolverCall → List (Except JsError (ρ × π)))
    (id : String) (opts : Nat) (heap : Heap) (filename : String)
    (ho : opts < heap.length)
    (hf : (deref heap opts).get "filename" = JsVal.str filename) :
    (bresolve env resolver id opts heap).length =
      (resolver (patchedCall env id opts heap)).length ∧
    ∀ i : Nat,
      (∀ err : JsError,
        (resolver (patchedCall env id opts heap))[i]? = some (Except.error err) →
        (bresolve env resolver id opts heap)[i]? =
          some (Except.ok (CbCall.failure (newError env
            ("Cannot find module \x27" ++ id ++ "\x27 from \x27" ++
              env.relative (env.pathDirname env.cwd) filename ++ "\x27")))) ∧
        (newError env
            ("Cannot find module \x27" ++ id ++ "\x27 from \x27" ++
              env.relative (env.pathDirname env.cwd) filename ++ "\x27")).message =
          "Cannot find module \x27" ++ id ++ "\x27 from \x27" ++
              env.relative (env.pathDirname env.cwd) filename ++ "\x27") ∧
      (∀ (result : ρ) (pkg : π),
        (resolver (patchedCall env id opts heap))[i]? = some (Except.ok (result, pkg)) →
        (bresolve env resolver id opts heap)[i]? =
          some (Except.ok (CbCall.success result pkg))) := by
  have hfile := patchedCall_filename env id opts heap ho
  rw [hf] at hfile
  refine ⟨by simp [bresolve], ?_⟩
  intro i
  constructor
  · intro err herr
    refine ⟨?_, rfl⟩
    simp [bresolve, herr, resolverCallback, hfile]
  · intro result pkg hok
    simp [bresolve, hok, resolverCallback]

/-- C4 at a resolver that reports a failure and then a success for the
specifier `glslify`. -/
theorem bresolve_spec_witness :
    0 < sampleHeap.length ∧
    (deref sampleHeap 0).get "filename" = JsVal.str "/home/me/art/sketch.js" ∧
    (bresolve sampleEnv sampleResolver "glslify" 0 sampleHeap).length = 2 :=
  ⟨by decide, by decide,
    (bresolve_spec sampleEnv sampleResolver "glslify" 0 sampleHeap "/home/me/art/sketch.js"
      (by decide) (by decide)).1⟩

/-- C7: when `--new` is given and something already exists at the destination,
inside a directory `sketches`, the run fails with the error `The file already
exists:` and the relative path, whatever the template key, and the disk and
the console are as before: nothing is written. -/
theorem start_collision (env : Env) (argv : Argv) (w : World)
    (hnew : argv.new.truthy = true)
    (hdir : isDirectory w.fs sketchDirectory = true)
    (hex : existsSync w.fs
      (env.join sketchDirectory (generateFileName env argv.new.suffix)) = true) :
    start env argv w =
      (w, Completion.rejected (newError env ("The file already exists: " ++
        env.relative env.cwd
          (env.join sketchDirectory (generateFileName env argv.new.suffix))))) ∧
    (newError env ("The file already exists: " ++
        env.relative env.cwd
          (env.join sketchDirectory (generateFileName env argv.new.suffix)))).message =
      "The file already exists: " ++
        env.relative env.cwd
          (env.join sketchDirectory (generateFileName env argv.new.suffix)) ∧
    (∀ p, readFileSync (start env argv w).1.fs p = readFileSync w.fs p) := by
  have hmk := mkdirp_of_isDirectory env w.fs sketchDirectory hdir
  have hstart : start env argv w =
      (w, Completion.rejected (newError env ("The file already exists: " ++
        env.relative env.cwd
          (env.join sketchDirectory (generateFileName env argv.new.suffix))))) := by
    apply start_of_materialize_error
    unfold materialize
    simp only [hnew, if_true, hmk, hex]
  refine ⟨hstart, rfl, ?_⟩
  intro p
  rw [hstart]

/-- C7 at a disk that holds the sketch of this very second. -/
theorem start_collision_witness :
    newArgv.new.truthy = true ∧
    isDirectory collisionWorld.fs sketchDirectory = true ∧
    (start sampleEnv newArgv collisionWorld).1 = collisionWorld ∧
    readFileSync (start sampleEnv newArgv collisionWorld).1.fs
      "sketches/2018.03.04-05.06.07.js" = some "const old = 1;" :=
  ⟨by decide, by decide,
    congrArg Prod.fst
      (start_collision sampleEnv newArgv collisionWorld (by decide) (by decide)
        (by decide)).1,
    by decide⟩

/-- C8, refuted as stated: with a regular file named `sketches` the destination
is free and the template key is unknown, yet the run fails with the error of
the directory creation, not with the one that names the template key. -/
theorem start_blocked_counterexample :
    unknownTemplateArgv.new.truthy = true ∧
    existsSync blockedWorld.fs
      (sampleEnv.join sketchDirectory
        (generateFileName sampleEnv unknownTemplateArgv.new.suffix)) = false ∧
    readFileSync blockedWorld.fs
      (sampleEnv.resolve3 sampleEnv.__dirname templateDirectory
        (unknownTemplateArgv.template ++ ".js")) = none ∧
    start sampleEnv unknownTemplateArgv blockedWorld =
      (blockedWorld, Completion.rejected
        (newError sampleEnv "EEXIST: file already exists, mkdir \x27sketches\x27")) := by
  decide

/-- C8, amended: when `--new` is given, the directory `sketches` is there or can
be created, the destination is then free and no file `<k>.js` can be read in
the templates directory, the run fails with the error `Couldn't find a
template by the key <k>`; every path reads as before, so no file is created or
written, and nothing is printed. -/
theorem start_unknown_template (env : Env) (argv : Argv) (w : World) (fs1 : FS)
    (hnew : argv.new.truthy = true)
    (hmk : mkdirp env w.fs sketchDirectory = .ok fs1)
    (hfree : existsSync fs1
      (env.join sketchDirectory (generateFileName env argv.new.suffix)) = false)
    (htpl : readFileSync w.fs
      (env.resolve3 env.__dirname templateDirectory (argv.template ++ ".js")) = none) :
    (start env argv w).2 = Completion.rejected
      (newError env ("Couldn\x27t find a template by the key " ++ argv.template)) ∧
    (newError env ("Couldn\x27t find a template by the key " ++ argv.template)).message =
      "Couldn\x27t find a template by the key " ++ argv.template ∧
    (∀ p, readFileSync (start env argv w).1.fs p = readFileSync w.fs p) ∧
    (start env argv w).1.stdout = w.stdout ∧
    (start env argv w).1.stderr = w.stderr := by
  have htpl1 : readFileSync fs1
      (env.resolve3 env.__dirname templateDirectory (argv.template ++ ".js")) = none := by
    rw [mkdirp_readFileSync env w.fs fs1 sketchDirectory hmk]; exact htpl
  have hstart : start env argv w =
      ({ w with fs := fs1 }, Completion.rejected
        (newError env ("Couldn\x27t find a template by the key " ++ argv.template))) := by
    apply start_of_materialize_error
    unfold materialize
    simp only [hnew, if_true, hmk, hfree, htpl1]
    simp
  rw [hstart]
  refine ⟨rfl, rfl, ?_, rfl, rfl⟩
  intro p
  exact mkdirp_readFileSync env w.fs fs1 sketchDirectory hmk p

/-- The amended C8 at a disk without the directory `sketches`: the directory is
created, and no file is. -/
theorem start_unknown_template_witness :
    unknownTemplateArgv.new.truthy = true ∧
    mkdirp sampleEnv freshWorld.fs sketchDirectory =
      .ok (("sketches", Node.dir) :: freshWorld.fs) ∧
    (start sampleEnv unknownTemplateArgv freshWorld).2 = Completion.rejected
      (newError sampleEnv "Couldn\x27t find a template by the key nosuch") :=
  ⟨by decide, rfl,
    (start_unknown_template sampleEnv unknownTemplateArgv freshWorld
      (("sketches", Node.dir) :: freshWorld.fs) (by decide) rfl (by decide) (by decide)).1⟩

/-- C9, the defect: on a collision with an existing file, and on an unknown
template key, `start` rejects, the dev server is not started, the handler of
`start().catch` prints the error, and the process ends with status 0, not 1. -/
theorem main_rejection_exit_status :
    (start sampleEnv newArgv collisionWorld).2 = Completion.rejected
      (newError sampleEnv "The file already exists: sketches/2018.03.04-05.06.07.js") ∧
    (main sampleEnv newArgv collisionWorld).2 = ProcessStatus.ended 0 ∧
    (start sampleEnv unknownTemplateArgv freshWorld).2 = Completion.rejected
      (newError sampleEnv "Couldn\x27t find a template by the key nosuch") ∧
    (main sampleEnv unknownTemplateArgv freshWorld).2 = ProcessStatus.ended 0 := by
  decide

/-! ## Further facts about the same functions -/

/-- The three failures that `start` reports itself end the process with
status 1 and do not start the dev server: no entry, an entry that does not
resolve, and a resolved entry that cannot be read. -/
theorem main_exit_one (env : Env) (argv : Argv) (w : World)
    (hnew : argv.new.truthy = false) :
    ((argv.entry = none ∨ argv.entry = some "") →
      main env argv w = (w.log (usage env), ProcessStatus.ended 1)) ∧
    (∀ e, argv.entry = some e → e ≠ "" →
      env.resolveSync w.fs (entryPath e) env.cwd = none →
      (main env argv w).2 = ProcessStatus.ended 1) ∧
    (∀ e f, argv.entry = some e → e ≠ "" →
      env.resolveSync w.fs (entryPath e) env.cwd = some f →
      readFileSync w.fs f = none →
      (main env argv w).2 = ProcessStatus.ended 1) := by
  have hmat : materialize env argv w = (w, .ok (argv.entry, none)) := by
    simp [materialize, hnew]
  refine ⟨?_, ?_, ?_⟩
  · rintro (h | h)
    · simp [main, start, hmat, h]
    · simp [main, start, hmat, h]
  · intro e he hne hres
    simp [main, start, hmat, he, hne, readSource, World.log, hres]
  · intro e f he hne hres hread
    simp [main, start, hmat, he, hne, readSource, World.log, hres, hread]

/-- An install that rejects is caught like any thrown error: the process ends
with status 0 and the dev server is not started. -/
theorem main_install_rejected (env : Env) (argv : Argv) (w w1 w2 : World)
    (entry src : String) (err : JsError)
    (hmat : materialize env argv w = (w1, .ok (some entry, some src)))
    (hentry : entry ≠ "") (hsrc : src ≠ "") (hinstall : argv.install = true)
    (hrej : env.install src (bullet env) w1 = (w2, some err)) :
    main env argv w = (w2.logError (errorReport env err), ProcessStatus.ended 0) := by
  apply main_of_rejected
  simp [start, hmat, hentry, hsrc, installAndServe, hinstall, hrej]

/-- The middleware on the reserved path and on another one, from a fresh
response. -/
theorem middleware_examples :
    middleware (fun r : String × String => r.1 ++ r.2) (.ok ("a", "b"))
        "/canvas-sketch-client/commit-hash"
        { statusCode := 200, headers := [], body := [], finished := false } =
      { res := { statusCode := 200, headers := [("Content-Type", "application/json")],
                 body := ["ab"], finished := true },
        nextCalls := [], commitRuns := 1, logged := [] } ∧
    middleware (fun r : String × String => r.1 ++ r.2) (.ok ("a", "b"))
        "/canvas-sketch-client/commit-hash?x"
        { statusCode := 200, headers := [], body := [], finished := false } =
      { res := { statusCode := 200, headers := [], body := [], finished := false },
        nextCalls := [none], commitRuns := 0, logged := [] } := by
  decide

/-- When the options carry no `filename`, a failure report makes the callback
of the patch throw, and the callback of the caller is not called. -/
theorem resolverCallback_without_filename :
    resolverCallback sampleEnv "x" [("basedir", JsVal.str "/home/me/art")]
      (.error { message := "ENOENT", stack := "" } : Except JsError (String × Nat)) =
      .error "TypeError" :=
  rfl

/-- The handler splits a stack of the engine after its first line, and keeps a
stack without trace lines whole but for its first line. -/
theorem splitStack_examples :
    splitStack "Error: boom\n    at start (index.js)\n    at run (main.js)" =
      (["Error: boom"], ["    at start (index.js)", "    at run (main.js)"]) ∧
    splitStack "Error: two\nlines\n  at f" = (["Error: two", "lines"], ["  at f"]) ∧
    splitStack "at first\nmiddle\n at last" = (["at first"], ["middle", " at last"]) ∧
    splitStack "" = ([""], []) := by
  decide

end CanvasSketch

